import Mathlib

/-!
Verification development for the backbeat ingestion/replication sources
(`extensions/mongoProcessor/MongoQueueProcessor.js` concatenated sources and
`extensions/utils/RaftLogEntry.js`).

The JavaScript is shallowly embedded: machine numbers are modelled as `Nat`
(object sizes and part counts stay far below 2^53, where JS numbers are
exact; real-valued comparisons such as `contentLen / rangeSize > 1000` are
modelled by the equivalent integer comparison `1000 * rangeSize < contentLen`,
and `Math.ceil(Math.log(x)/Math.log(2))` by `Nat.clog 2 x`, i.e. the
floating-point library calls are given their exact real semantics).
Callback-style control flow is modelled as pure functions returning the list
of gateway requests issued (the trace) together with the terminal outcome;
the behaviour of the outside world (source and destination gateways) is an
explicit environment record.  `while` loops are modelled with an explicit
fuel parameter that provably dominates the number of iterations the source
loop can perform.
-/

/-! ## Range planner (`MultipleBackendTask`, lines 690-767) -/

/-- A byte range `{ start, end }` of the source object; both bounds are
inclusive.  The JS field `end` is called `stop` here because `end` is a
reserved word in Lean. -/
structure ByteRange where
  start : Nat
  stop : Nat
deriving DecidableEq

/-- `const MPU_GCP_MAX_PARTS = 1024;` (line 306). -/
def MPU_GCP_MAX_PARTS : Nat := 1024

/-- First `while` loop of `_getRangeSize` (lines 722-729):
`while (contentLen / rangeSize > 1000) { if (rangeSize >= 512MB) break; rangeSize *= 2; }`.
The fuel dominates the iteration count: the loop body runs only while
`rangeSize < 512MiB`, and `rangeSize` doubles each time, so starting from
16MiB at most 5 iterations happen; callers pass fuel `contentLen ≥ 1`,
and the adequacy of any fuel is irrelevant for the theorems proved below
(they hold for the exact value computed here, shown to satisfy the same
postconditions as the unbounded loop). -/
def rangeSizeLoop1 (contentLen : Nat) : Nat → Nat → Nat
  | 0, rangeSize => rangeSize
  | fuel + 1, rangeSize =>
      if 1000 * rangeSize < contentLen then
        if 512 * 1024 * 1024 ≤ rangeSize then rangeSize
        else rangeSizeLoop1 contentLen fuel (2 * rangeSize)
      else rangeSize

/-- Second `while` loop of `_getRangeSize` (lines 733-735):
`while (contentLen / rangeSize > 10000) { rangeSize *= 2; }`. -/
def rangeSizeLoop2 (contentLen : Nat) : Nat → Nat → Nat
  | 0, rangeSize => rangeSize
  | fuel + 1, rangeSize =>
      if 10000 * rangeSize < contentLen then rangeSizeLoop2 contentLen fuel (2 * rangeSize)
      else rangeSize

/-- `_getRangeSize(contentLen)` (lines 716-737).  Default part size is 16MB;
objects at most that large are returned whole (`if (contentLen <= rangeSize)
return contentLen`), larger objects run the two doubling loops. -/
def _getRangeSize (contentLen : Nat) : Nat :=
  let rangeSize := 1024 * 1024 * 16
  if contentLen ≤ rangeSize then contentLen
  else rangeSizeLoop2 contentLen contentLen (rangeSizeLoop1 contentLen contentLen rangeSize)

/-- `_getGCPRangeSize(contentLen)` (lines 697-705).  When the generic range
size would produce more than `MPU_GCP_MAX_PARTS` ranges, the range size is
recomputed as `Math.ceil(pow / 1024)` where
`pow = 2 ** Math.ceil(Math.log(contentLen) / Math.log(2))` (next power of
two, `Nat.clog 2` in the exact model). -/
def _getGCPRangeSize (contentLen : Nat) : Nat :=
  let rangeSize := _getRangeSize contentLen
  if MPU_GCP_MAX_PARTS * rangeSize < contentLen then
    let pow := 2 ^ Nat.clog 2 contentLen
    (pow + (MPU_GCP_MAX_PARTS - 1)) / MPU_GCP_MAX_PARTS
  else rangeSize

/-- The `while (end < contentLen - 1)` loop of `_getRanges` (lines 756-765),
with its mutable state `(start, end, ranges)` made explicit (`e` is the JS
variable `end`) and fuel dominating the iteration count (each pushing
iteration advances `start` by at least one byte, so `contentLen + 2`
iterations always suffice; `rangesLoop_eq_mkTiles` below proves the loop
equal to a clean recursion under that fuel). -/
def rangesLoop (contentLen size : Nat) : Nat → Nat → Nat → List ByteRange → List ByteRange
  | 0, _, _, acc => acc
  | fuel + 1, start, e, acc =>
      if e < contentLen - 1 then
        let e2 := start + size - 1
        if e2 < contentLen - 1 then
          rangesLoop contentLen size fuel (e2 + 1) e2 (acc ++ [⟨start, e2⟩])
        else
          rangesLoop contentLen size fuel start e2 acc
      else acc ++ [⟨start, contentLen - 1⟩]

/-- `_getRanges(contentLen, isGCP)` (lines 747-767).  A 0-byte object gets the
single `null` range; otherwise the object is tiled with ranges of the size
chosen by `_getRangeSize` / `_getGCPRangeSize`. -/
def _getRanges (contentLen : Nat) (isGCP : Bool) : List (Option ByteRange) :=
  if contentLen = 0 then [none]
  else
    let size := if isGCP then _getGCPRangeSize contentLen else _getRangeSize contentLen
    (rangesLoop contentLen size (contentLen + 2) 0 0 []).map some

/-- Clean recursive form of the `_getRanges` tiling loop: emit ranges of
`size` bytes from `start` until the tail fits in one final range ending at
`contentLen - 1`.  Proved equal to `rangesLoop` (hence to the source loop)
in `rangesLoop_eq_mkTiles`; the positivity guard on `size` only makes the
recursion total (the source never calls the loop with `size = 0`). -/
def mkTiles (contentLen size : Nat) (start : Nat) : List ByteRange :=
  if h : start + size - 1 < contentLen - 1 ∧ 0 < size then
    ⟨start, start + size - 1⟩ :: mkTiles contentLen size (start + size)
  else [⟨start, contentLen - 1⟩]
termination_by contentLen - start
decreasing_by omega

/-! ## Range planner, spec-side algorithm (for the refinement claim C5) -/

/-- Modelled from the spec: §4.5's part-size algorithm exactly as the spec
words it — "Base part size: 16 MiB. While `contentLength / partSize > 1000`
and `partSize < 512 MiB`: double partSize. While
`contentLength / partSize > 10000`: double again."  The spec does not
mention the source's early return of `contentLen` itself for objects of at
most 16MiB. -/
def specPartSize (contentLen : Nat) : Nat :=
  rangeSizeLoop2 contentLen contentLen (rangeSizeLoop1 contentLen contentLen (1024 * 1024 * 16))

/-- Modelled from the spec: §4.5's GCP cap — "if
`contentLength / partSize > 1024`, set
`partSize = ceil(nextPow2(contentLength) / 1024)`". -/
def specGCPPartSize (contentLen : Nat) : Nat :=
  let p := specPartSize contentLen
  if MPU_GCP_MAX_PARTS * p < contentLen then
    (2 ^ Nat.clog 2 contentLen + (MPU_GCP_MAX_PARTS - 1)) / MPU_GCP_MAX_PARTS
  else p

/-! ## Replication task over the multiple-backend gateway
(`MultipleBackendTask`, lines 308-1386)

The task is modelled as a pure function from an entry and an environment to
the sequence of gateway requests issued (the trace) and the terminal
callback outcome.  The environment fixes the outcome the outside world gives
each request; `partRes`, `putObjectRes` and `sourceMD` are indexed so that
outcomes can differ between parts and between successive object-state
checks (the NFS mid-transfer-mutation scenarios).  Each `partRes n` /
`putObjectRes n` is the terminal outcome delivered by the source's retry
wrapper (`this.retry` with `shouldRetryFunc: err => err.retryable`), which
passes a non-retryable error through unchanged. -/

/-- An error value as the source manipulates it: arsenal/AWS errors carry a
code (the arsenal type flags such as `err.InvalidObjectState` are true
exactly for that code), a retryability bit, the mutable `origin` tag the
task attaches, and a description. -/
structure RErr where
  code : String
  retryable : Bool
  origin : Option String
  description : String
deriving DecidableEq

/-- `errors.InvalidObjectState` from arsenal (non-retryable). -/
def errInvalidObjectState : RErr :=
  { code := "InvalidObjectState", retryable := false, origin := none,
    description := "The operation is not valid for the object's storage class." }

/-- `errors.InternalError.customizeDescription(...)` raised by
`_getAndPutData` (lines 1172-1178) when a part lacks a `dataStoreETag`. -/
def errInternalErrorETag : RErr :=
  { code := "InternalError", retryable := false, origin := none,
    description := "cannot replicate object without dataStoreETag property" }

/-- Payload of a successful `multipleBackendPutMPUPart` response. -/
structure PartPutData where
  partNumber : Nat
  etag : String
  numberSubParts : Nat
deriving DecidableEq

/-- One element of the part list accumulated by `_completeRangedMPU`
(lines 797-802): `{ PartNumber: [..], ETag: [..] }` plus `NumberSubParts`
for the azure family. -/
structure CompletedPart where
  partNumber : Nat
  etag : String
  numberSubParts : Option Nat
deriving DecidableEq

/-- One element of an object entry's `location[]` array as the data path
reads it (`ObjectMDLocation` accessors). -/
structure PartLoc where
  dataStoreETag : Option String
  partNumber : Nat
  partSize : Nat
deriving DecidableEq

/-- The fields of an `ObjectQueueEntry` that the replicated-data and MPU
paths read. `reducedLocations` models `getReducedLocations()` (defined in
`lib/models/ObjectQueueEntry`, outside the given sources; per the spec it
coalesces adjacent parts sharing a backend identity, and it is kept
abstract here). -/
structure SrcEntry where
  bucket : String
  objectKey : String
  contentLength : Nat
  contentMd5 : String
  isNFS : Bool
  isDeleteMarker : Bool
  location : List PartLoc
  reducedLocations : List PartLoc
deriving DecidableEq

/-- A request issued to the source or destination gateway. -/
inductive GOp where
  | initiateMPU
  | putMPUPart (partNumber : Nat)
  | completeMPU
  | abortMPU
  | headSource
  | getObject (partNumber : Nat)
  | putObject (partNumber : Nat)
deriving DecidableEq

/-- Environment: the outcome the outside world gives each request.
`sourceMD k` is the content MD5 (or error) that the k-th `_fetchSourceMD`
call of `_checkObjectState` would return; because of the arity bug in
`_checkObjectState` (see there) no such call is ever issued by the state
checks, so this field is never consulted. -/
structure TaskEnv where
  endpointType : String
  initRes : Except RErr String
  localUploadId : String
  partRes : Nat → Except RErr PartPutData
  sourceMD : Nat → Except RErr String
  completeRes : Except RErr Unit
  putObjectRes : Nat → Except RErr Unit

/-- Outcome of one callback-style call: either the callback ran (`done`,
with or without an error value), or a synchronous `TypeError` was thrown
and the callback never ran (nothing in the task catches, so the exception
propagates to the caller). -/
inductive JsResult where
  | done (err : Option RErr)
  | typeError
deriving DecidableEq

/-- `_checkObjectState` (lines 995-1016) as the code actually executes: it
invokes `this._fetchSourceMD(sourceEntry.getBucket(), sourceEntry.getObjectKey(),
sourceEntry.getEncodedVersionId(), log, callback)` (lines 996-998), but
`_fetchSourceMD` is declared with three parameters `(sourceEntry, log, cb)`
(line 370), so inside it `sourceEntry` is the bucket string and its very
first use `sourceEntry.getBucket()` throws a `TypeError` synchronously,
before any metadata request is issued; the real callback — the dropped
fifth argument — never runs.  The MD5 comparison of lines 999-1015 is
therefore dead code: the check always throws, with an empty trace.
(The correctly-arities call `this._fetchSourceMD(sourceEntry, log, ...)`
at line 1280 shows the intended 3-argument usage.) -/
def _checkObjectState ( _entry : SrcEntry) ( _env : TaskEnv) ( _k : Nat) : List GOp × JsResult :=
  ([], .typeError)

/-- `_checkMPUState` (lines 839-853): delegates to `_checkObjectState`,
passing it a callback that would abort the open MPU on
`InvalidObjectState` (line 848) and propagate any other error.  Because
`_checkObjectState` throws a `TypeError` before its callback can run, the
`done` arms below — including the only `abortMPU` call site of the whole
task — are unreachable; the thrown `TypeError` propagates (nothing
catches it). -/
def _checkMPUState (entry : SrcEntry) (env : TaskEnv) (k : Nat) : List GOp × JsResult :=
  match _checkObjectState entry env k with
  | (cevs, .typeError) => (cevs, .typeError)
  | (cevs, .done (some e)) =>
      if e.code ≠ "InvalidObjectState" then (cevs, .done (some e))
      else (cevs ++ [.abortMPU], .done (some errInvalidObjectState))
  | (cevs, .done none) => (cevs, .done none)

/-- `_initiateMPU` (lines 653-688): for the azure family the upload id is a
locally generated uuid and no request is issued; otherwise a
`multipleBackendInitiateMPU` request is sent, and an error is tagged
`err.origin = 'source'` (line 676). -/
def _initiateMPU (entry : SrcEntry) (env : TaskEnv) : List GOp × Except RErr String :=
  if env.endpointType = "azure" then ([], .ok env.localUploadId)
  else
    match env.initRes with
    | .error e => ([.initiateMPU], .error { e with origin := some "source" })
    | .ok uploadId => ([.initiateMPU], .ok uploadId)

/-- One `_getRangeAndPutMPUPart` attempt (lines 408-454 and 571-640): a
ranged `getObject` on the source (absent for the `null` range of a 0-byte
object) followed by a `multipleBackendPutMPUPart` on the destination; the
terminal outcome of the retry wrapper is `env.partRes partNumber`. -/
def partAttempt (env : TaskEnv) (range : Option ByteRange) (partNumber : Nat) :
    List GOp × Except RErr PartPutData :=
  ((if range.isSome then [GOp.getObject partNumber] else []) ++ [GOp.putMPUPart partNumber],
    env.partRes partNumber)

/-- Outcome of the part-upload phase of `_completeRangedMPU`: all parts
succeeded, the phase failed with a callback error, or a synchronous
`TypeError` escaped (the NFS object-state re-check). -/
inductive PartsOutcome where
  | ok (parts : List CompletedPart)
  | err (e : RErr)
  | typeError
deriving DecidableEq

/-- The per-part iterator of `_completeRangedMPU` (lines 781-811), run
sequentially (`async.timesLimit` launches no further parts after a failure
and calls its final callback once, so the events and the terminal outcome
of an execution are those of this linearization).  For an NFS entry the
source calls `_checkMPUState` after every part outcome, successful or not
(lines 785-793 and 804-809); that call throws a `TypeError` (see
`_checkObjectState`), which propagates out of the iterator, so an NFS run
never advances past its first settled part.  `n` is the 0-based part index
and `k` the object-state check counter. -/
def partsLoop (entry : SrcEntry) (env : TaskEnv) (isAzure : Bool) :
    List (Option ByteRange) → Nat → Nat → List GOp × PartsOutcome
  | [], _, _ => ([], .ok [])
  | range :: rest, n, k =>
      let a := partAttempt env range (n + 1)
      match a.2 with
      | .error e =>
          if entry.isNFS then
            match _checkMPUState entry env k with
            | (cevs, .typeError) => (a.1 ++ cevs, .typeError)
            | (cevs, .done (some e2)) => (a.1 ++ cevs, .err e2)
            | (cevs, .done none) => (a.1 ++ cevs, .err e)
          else (a.1, .err e)
      | .ok d =>
          let res : CompletedPart :=
            ⟨d.partNumber, d.etag, if isAzure then some d.numberSubParts else none⟩
          if entry.isNFS then
            match _checkMPUState entry env k with
            | (cevs, .typeError) => (a.1 ++ cevs, .typeError)
            | (cevs, .done (some e2)) => (a.1 ++ cevs, .err e2)
            | (cevs, .done none) =>
                match partsLoop entry env isAzure rest (n + 1) (k + 1) with
                | (revs, .ok l) => (a.1 ++ cevs ++ revs, .ok (res :: l))
                | (revs, .err e2) => (a.1 ++ cevs ++ revs, .err e2)
                | (revs, .typeError) => (a.1 ++ cevs ++ revs, .typeError)
          else
            match partsLoop entry env isAzure rest (n + 1) (k + 1) with
            | (revs, .ok l) => (a.1 ++ revs, .ok (res :: l))
            | (revs, .err e2) => (a.1 ++ revs, .err e2)
            | (revs, .typeError) => (a.1 ++ revs, .typeError)

/-- `_completeMPU` (lines 523-558): one `multipleBackendCompleteMPU`
request; an error is tagged `err.origin = 'source'` (line 544, although the
log record written beside it says `origin: 'target'`). -/
def _completeMPU (env : TaskEnv) : List GOp × Option RErr :=
  match env.completeRes with
  | .error e => ([.completeMPU], some { e with origin := some "source" })
  | .ok _ => ([.completeMPU], none)

/-- `_completeRangedMPU` (lines 777-829): plan the ranges, upload every
part, then complete the MPU; a part-phase callback error is tagged
`err.origin = 'source'` by the final callback (line 815) and the MPU is
left open; a `TypeError` escaping the part phase propagates (the final
callback never runs). -/
def _completeRangedMPU (entry : SrcEntry) (env : TaskEnv) (k0 : Nat) : List GOp × JsResult :=
  let isGCP := env.endpointType = "gcp"
  let isAzure := env.endpointType = "azure"
  let ranges := _getRanges entry.contentLength isGCP
  match partsLoop entry env isAzure ranges 0 k0 with
  | (pevs, .err e) => (pevs, .done (some { e with origin := some "source" }))
  | (pevs, .typeError) => (pevs, .typeError)
  | (pevs, .ok _) =>
      let c := _completeMPU env
      (pevs ++ c.1, .done c.2)

/-- `_sendInitiateMPU` (lines 876-888): initiate the MPU, then (only when an
upload id came back) run the ranged MPU to completion. -/
def _sendInitiateMPU (entry : SrcEntry) (env : TaskEnv) (k0 : Nat) : List GOp × JsResult :=
  match _initiateMPU entry env with
  | (ievs, .error e) => (ievs, .done (some e))
  | (ievs, .ok _) =>
      let r := _completeRangedMPU entry env k0
      (ievs ++ r.1, r.2)

/-- `_getAndPutMultipartUploadOnce` (lines 855-867): an NFS entry gets an
up-front object-state check (check index 0; the per-part checks are
1, 2, ...) before the MPU is initiated.  That check throws a `TypeError`
(see `_checkObjectState`), so an NFS MPU run terminates immediately with
no request issued; the `done` arms below are unreachable. -/
def _getAndPutMultipartUploadOnce (entry : SrcEntry) (env : TaskEnv) : List GOp × JsResult :=
  if entry.isNFS then
    match _checkObjectState entry env 0 with
    | (cevs, .typeError) => (cevs, .typeError)
    | (cevs, .done (some e)) => (cevs, .done (some e))
    | (cevs, .done none) =>
        let r := _sendInitiateMPU entry env 1
        (cevs ++ r.1, r.2)
  else _sendInitiateMPU entry env 0

/-! ## Single-put data path (`_getAndPutData`, lines 1164-1191) -/

/-- One `_getAndPutPartOnce` run (lines 908-985): get the part (or the whole
object when `part` is `null`) from the source — no request when the size is
0 — then `multipleBackendPutObject` it to the destination; `putObjectRes`
errors are tagged `err.origin = 'source'` (line 1053, beside a log record
saying `origin: 'target'`).  For an NFS entry the `_checkObjectState` call
of lines 974-981 throws a `TypeError` before the put can be sent; the
`done` arms of that match are unreachable. -/
def _getAndPutPartOnce (entry : SrcEntry) (env : TaskEnv) (part : Option PartLoc) (k : Nat) :
    List GOp × JsResult :=
  let pn := match part with | some p => p.partNumber | none => 0
  let size := match part with | some p => p.partSize | none => entry.contentLength
  let gevs := if size ≠ 0 then [GOp.getObject pn] else []
  let putRes : Option RErr := match env.putObjectRes pn with
    | .error e => some { e with origin := some "source" }
    | .ok _ => none
  if entry.isNFS then
    match _checkObjectState entry env k with
    | (cevs, .typeError) => (gevs ++ cevs, .typeError)
    | (cevs, .done (some e)) => (gevs ++ cevs, .done (some e))
    | (cevs, .done none) => (gevs ++ cevs ++ [.putObject pn], .done putRes)
  else (gevs ++ [.putObject pn], .done putRes)

/-- The `async.mapLimit` over the reduced locations (lines 1189-1190), run
sequentially with stop-at-first-error (the linearization of the bounded
parallel map); a `TypeError` escaping an iteration propagates. -/
def dataPartsLoop (entry : SrcEntry) (env : TaskEnv) :
    List PartLoc → Nat → List GOp × JsResult
  | [], _ => ([], .done none)
  | p :: rest, k =>
      match _getAndPutPartOnce entry env (some p) k with
      | (evs, .typeError) => (evs, .typeError)
      | (evs, .done (some e)) => (evs, .done (some e))
      | (evs, .done none) =>
          let r := dataPartsLoop entry env rest (k + 1)
          (evs ++ r.1, r.2)

/-- Body of `_getAndPutData` after the dataStoreETag guard (lines 1180-1190):
a metadata-only entry (no reduced locations) gets one whole-object put,
otherwise every reduced location is streamed across. -/
def _getAndPutDataBody (entry : SrcEntry) (env : TaskEnv) : List GOp × JsResult :=
  let locations := entry.reducedLocations
  if locations = [] then _getAndPutPartOnce entry env none 0
  else dataPartsLoop entry env locations 0

/-- `_getAndPutData` (lines 1164-1191): if any element of `location[]` lacks
a `dataStoreETag`, fail with the permanent `InternalError` before issuing
anything. -/
def _getAndPutData (entry : SrcEntry) (env : TaskEnv) : List GOp × JsResult :=
  if entry.location.any (fun part => part.dataStoreETag.isNone) then
    ([], .done (some errInternalErrorETag))
  else _getAndPutDataBody entry env

/-! ## Error-origin tagging (claim C7) -/

/-- `_putMPUPart` (lines 622-633): the error of the destination
`multipleBackendPutMPUPart` request is tagged `err.origin = 'source'`
(line 625) even though the log record beside it says `origin: 'target'`. -/
def putMPUPartTagOrigin (e : RErr) : RErr := { e with origin := some "source" }

/-- `_completeMPU` (lines 541-552): the error of the destination
`multipleBackendCompleteMPU` request is tagged `err.origin = 'source'`
(line 544) even though the log record beside it says `origin: 'target'`. -/
def completeMPUTagOrigin (e : RErr) : RErr := { e with origin := some "source" }

/-- `_sendMultipleBackendPutObject` (lines 1050-1061): the error of the
destination `multipleBackendPutObject` request is tagged
`err.origin = 'source'` (line 1053) even though the log record beside it
says `origin: 'target'`. -/
def putObjectTagOrigin (e : RErr) : RErr := { e with origin := some "source" }

/-- The `onRetryFunc` of `_getAndPutPart` (lines 898-903): the destination
host is advanced (`destHosts.pickNextHost()` plus a fresh destination
client) exactly when the retried error carries `origin === 'target'`. -/
def onRetryAdvancesHost (e : RErr) : Bool := e.origin == some "target"

/-! ## Terminal outcome classification (`_handleReplicationOutcome`,
lines 1330-1374) -/

/-- The fields of a terminal error that `_handleReplicationOutcome` reads:
the arsenal type flags (`err.BadRole`, `err.NoSuchEntity`, ...), the AWS-SDK
style string `err.code`, the `origin` tag and the description. -/
structure OutcomeError where
  badRole : Bool
  noSuchEntity : Bool
  accessDenied : Bool
  objNotFound : Bool
  invalidObjectState : Bool
  code : String
  origin : Option String
  description : String
deriving DecidableEq

/-- A replication-status record published back onto the log bus by
`_publishReplicationStatus`. -/
inductive StatusPublish where
  | completed
  | failed (reason : String)
deriving DecidableEq

/-- What `_handleReplicationOutcome` does: which status (if any) it
publishes, and whether the callback marks the entry committable (`done()`
is committable, `done(null, { committable: false })` is not). -/
structure OutcomeRes where
  published : Option StatusPublish
  committable : Bool
deriving DecidableEq

/-- `_handleReplicationOutcome(err, ...)` (lines 1330-1374). -/
def _handleReplicationOutcome (err : Option OutcomeError) : OutcomeRes :=
  match err with
  | none => { published := some .completed, committable := false }
  | some e =>
      if e.badRole ∨ (e.origin = some "source" ∧
          (e.noSuchEntity ∨ e.code = "NoSuchEntity" ∨ e.accessDenied ∨ e.code = "AccessDenied")) then
        { published := none, committable := true }
      else if e.objNotFound ∨ e.code = "ObjNotFound" then
        { published := none, committable := true }
      else if e.invalidObjectState ∨ e.code = "InvalidObjectState" then
        { published := none, committable := true }
      else
        { published := some (.failed e.description), committable := false }

/-! ## Metadata-mirror processor
(`MongoQueueProcessor.processKafkaEntry`, lines 127-280) -/

/-- One element of an object entry's `location[]` as the mirror rewrites it;
the fields not named in `_manipulateLocation`'s `newValues` survive the
`Object.assign({}, location, newValues)` copy unchanged
(`dataStoreVersionId` too, when the entry has no version id). -/
structure LocationEl where
  key : String
  dataStoreName : String
  dataStoreType : String
  dataStoreVersionId : Option String
  dataStoreETag : Option String
  size : Nat
  start : Nat
deriving DecidableEq

/-- The metadata value carried by an object entry (`getValue()`); `rest`
stands for every metadata field the mirror does not touch. -/
structure ObjMd where
  location : List LocationEl
  ownerDisplayName : String
  ownerId : String
  rest : String
deriving DecidableEq

/-- The accessors of an `ObjectQueueEntry` that the mirror reads.
`objectVersionedKey` models `getObjectVersionedKey()` (defined in
`lib/models`, outside the given sources) and is kept abstract;
`encodedVersionId` is meaningful when `versionId` is present. -/
structure ObjEntry where
  bucket : String
  objectKey : String
  objectVersionedKey : String
  versionId : Option String
  encodedVersionId : String
  md : ObjMd
deriving DecidableEq

/-- `_manipulateLocation(entry)` (lines 127-142): every location element is
rewritten with the mirror's key, canonical `dataStoreName`/`dataStoreType`,
and — exactly when the entry has a version id — `dataStoreVersionId`. -/
def _manipulateLocation (entry : ObjEntry) : ObjEntry :=
  let editLocations := entry.md.location.map fun location =>
    { location with
        key := entry.objectKey
        dataStoreName := "philz-ring"
        dataStoreType := "aws_s3"
        dataStoreVersionId :=
          if entry.versionId.isSome then some entry.encodedVersionId
          else location.dataStoreVersionId }
  { entry with md := { entry.md with location := editLocations } }

/-- `_manipulateOwner(entry)` (lines 144-148). -/
def _manipulateOwner (entry : ObjEntry) : ObjEntry :=
  { entry with md := { entry.md with
      ownerDisplayName := "felipe"
      ownerId := "117d39428f838cb5ac64ffd998f27e44167047a46e6504057b50ed484ae6c5de" } }

/-- Outcome passed to the processor's `done` callback. -/
inductive MirrorErr where
  | internalError
  | dbError (message : String)
deriving DecidableEq

/-- A document-database operation issued through the mongo client; the
version params argument is always `undefined` (`none`), selecting
`putObjectNoVer` / `deleteObjectNoVer`. -/
inductive DbOp where
  | putObject (bucket key : String) (value : ObjMd) (versionParams : Option Unit)
  | deleteObject (bucket key : String) (versionParams : Option Unit)
deriving DecidableEq

/-- The variant of a parsed kafka entry (`QueueEntry.createFromKafkaEntry`
prototype dispatch): `malformed` is a parse failure, `unknown` an entry of
none of the known classes. -/
inductive SourceEntry where
  | malformed
  | deleteOp (bucket objectVersionedKey : String)
  | objectOp (entry : ObjEntry)
  | bucketMdOp (info : String)
  | bucketOp (info : String)
  | unknown (info : String)
deriving DecidableEq

/-- Environment for the mirror processor: the error (if any) the mongo
client reports for a put / delete. -/
structure MirrorEnv where
  putObjectErr : Option String
  deleteObjectErr : Option String

/-- `processKafkaEntry(kafkaEntry, done)` (lines 163-280): a delete entry
deletes the versioned key, an object entry is rewritten then put under the
versioned key, bucket and bucket-metadata entries only log (their handlers
are commented out, lines 239-276) and fall through to the final
`process.nextTick(done)`, as do unknown entries. -/
def processKafkaEntry (sourceEntry : SourceEntry) (env : MirrorEnv) :
    List DbOp × Option MirrorErr :=
  match sourceEntry with
  | .malformed => ([], some .internalError)
  | .deleteOp bucket key =>
      ([DbOp.deleteObject bucket key none], env.deleteObjectErr.map MirrorErr.dbError)
  | .objectOp entry0 =>
      let entry := _manipulateOwner (_manipulateLocation entry0)
      ([DbOp.putObject entry0.bucket entry0.objectVersionedKey entry.md none],
        env.putObjectErr.map MirrorErr.dbError)
  | .bucketMdOp _ => ([], none)
  | .bucketOp _ => ([], none)
  | .unknown _ => ([], none)

/-! ## Raft log entry constructors (`extensions/utils/RaftLogEntry.js`) -/

/-- A mirror-write record produced by `RaftLogEntry`; `value` is `none` for
the JS `null` and `some s` for a serialized string. -/
structure RaftEntryRec where
  type : String
  bucket : String
  key : String
  value : Option String
deriving DecidableEq

/-- The argument of `createPutEntry`: object info with its raw metadata
`res` of some type `M`; the serialization `JSON.stringify` is passed as an
abstract function. -/
structure ObjectMdInfo (M : Type) where
  bucketName : String
  objectKey : String
  res : M

/-- The argument of `createPutBucketMdEntry`: arsenal `BucketInfo` with its
`_name` field and the result of `serialize()`. -/
structure BucketInfoMd where
  name : String
  serialized : String

/-- `usersBucket` from arsenal's constants (outside the given sources). -/
def usersBucket : String := "users..bucket"

/-- `createPutEntry(objectMd, bucketPrefix)` (lines 12-20). -/
def createPutEntry {M : Type} (stringify : M → String) (objectMd : ObjectMdInfo M)
    (bucketPref : String) : RaftEntryRec :=
  { type := "put"
    bucket := bucketPref ++ "-" ++ objectMd.bucketName
    key := objectMd.objectKey
    value := some (stringify objectMd.res) }

/-- `createPutBucketEntry(bucket, bucketPrefix)` (lines 30-37); the JS
template literal coerces `bucket` to a string, so it is a string here. -/
def createPutBucketEntry (bucket : String) (bucketPref : String) : RaftEntryRec :=
  { type := "put"
    bucket := usersBucket
    key := bucketPref ++ "-" ++ bucket
    value := none }

/-- `createPutBucketMdEntry(bucket, bucketPrefix)` (lines 46-54). -/
def createPutBucketMdEntry (bucket : BucketInfoMd) (bucketPref : String) : RaftEntryRec :=
  { type := "put"
    bucket := bucketPref ++ "-" ++ bucket.name
    key := bucketPref ++ "-" ++ bucket.name
    value := some bucket.serialized }

/-! ## Concrete fixtures used by witnesses and counterexamples -/

/-- A small non-NFS object entry (one byte, one part). -/
def exEntryPlain : SrcEntry :=
  { bucket := "b", objectKey := "k", contentLength := 1, contentMd5 := "md5a"
    isNFS := false, isDeleteMarker := false
    location := [{ dataStoreETag := some "1:etag", partNumber := 1, partSize := 1 }]
    reducedLocations := [{ dataStoreETag := some "1:etag", partNumber := 1, partSize := 1 }] }

/-- The same entry with the NFS flag set. -/
def exEntryNFS : SrcEntry :=
  { exEntryPlain with isNFS := true }

/-- An entry whose single location element lacks a `dataStoreETag`. -/
def exEntryNoETag : SrcEntry :=
  { exEntryPlain with location := [{ dataStoreETag := none, partNumber := 1, partSize := 1 }] }

/-- An environment where every request succeeds and the source object never
changes. -/
def exEnvOk : TaskEnv :=
  { endpointType := "aws_s3", initRes := .ok "uploadId1", localUploadId := "localId1"
    partRes := fun n => .ok ⟨n, "etag", 0⟩
    sourceMD := fun _ => .ok "md5a"
    completeRes := .ok (), putObjectRes := fun _ => .ok () }

/-- A non-retryable error with no origin tag, as a gateway would surface. -/
def exErrRaw : RErr :=
  { code := "AccessDenied", retryable := false, origin := none, description := "denied" }

/-- An environment where every part upload fails with the non-retryable
`exErrRaw`. -/
def exEnvPartFail : TaskEnv :=
  { exEnvOk with partRes := fun _ => .error exErrRaw }

/-- An environment where the source object's MD5 differs from the entry's
at every check after the first (check 0 would see the entry's MD5, later
checks a different one) — the C4 scenario; because of the arity bug in
`_checkObjectState` these MD5s are never actually requested. -/
def exEnvMutate : TaskEnv :=
  { exEnvOk with sourceMD := fun k => if k = 0 then .ok "md5a" else .ok "md5b" }

/-! ## Lemmas about the range planner -/

theorem mkTiles_ne_nil (L size start : Nat) : mkTiles L size start ≠ [] := by
  rw [mkTiles]
  split <;> simp

theorem mkTiles_head (L size start : Nat) :
    ((mkTiles L size start).map ByteRange.start).head? = some start := by
  rw [mkTiles]
  split <;> simp

theorem mkTiles_cons (L size start : Nat) (h : start + size - 1 < L - 1) (hs : 0 < size) :
    mkTiles L size start = ⟨start, start + size - 1⟩ :: mkTiles L size (start + size) := by
  conv_lhs => rw [mkTiles]
  rw [dif_pos ⟨h, hs⟩]

theorem mkTiles_single (L size start : Nat) (h : ¬ (start + size - 1 < L - 1 ∧ 0 < size)) :
    mkTiles L size start = [⟨start, L - 1⟩] := by
  conv_lhs => rw [mkTiles]
  rw [dif_neg h]

theorem getLast?_cons_of_ne_nil {α : Type} (a : α) {l : List α} (h : l ≠ []) :
    (a :: l).getLast? = l.getLast? := by
  cases l with
  | nil => exact absurd rfl h
  | cons b t => simp [List.getLast?]

theorem mkTiles_spec (L size : Nat) (hsize : 0 < size) :
    ∀ start, start < L →
      ((mkTiles L size start).map ByteRange.stop).getLast? = some (L - 1) ∧
      List.Chain' (fun a b => b.start = a.stop + 1) (mkTiles L size start) ∧
      (∀ r ∈ mkTiles L size start, r.start ≤ r.stop) ∧
      ((mkTiles L size start).map (fun r => r.stop - r.start + 1)).sum = L - start := by
  have key : ∀ n start, L - start ≤ n → start < L →
      ((mkTiles L size start).map ByteRange.stop).getLast? = some (L - 1) ∧
      List.Chain' (fun a b => b.start = a.stop + 1) (mkTiles L size start) ∧
      (∀ r ∈ mkTiles L size start, r.start ≤ r.stop) ∧
      ((mkTiles L size start).map (fun r => r.stop - r.start + 1)).sum = L - start := by
    intro n
    induction n with
    | zero => intro start hle hlt; omega
    | succ n ih =>
      intro start hle hlt
      rw [mkTiles]
      by_cases h : start + size - 1 < L - 1
      · rw [dif_pos ⟨h, hsize⟩]
        obtain ⟨ihLast, ihChain, ihIncl, ihSum⟩ :=
          ih (start + size) (by omega) (by omega)
        refine ⟨?_, ?_, ?_, ?_⟩
        · rw [List.map_cons, getLast?_cons_of_ne_nil]
          · exact ihLast
          · have hne : mkTiles L size (start + size) ≠ [] := mkTiles_ne_nil L size _
            simpa using hne
        · refine List.chain'_cons'.mpr ⟨?_, ihChain⟩
          intro y hy
          have hh := mkTiles_head L size (start + size)
          rw [List.head?_map] at hh
          cases hmem : (mkTiles L size (start + size)).head? with
          | none => rw [hmem] at hy; simp [Option.mem_def] at hy
          | some r =>
            rw [hmem] at hy hh
            simp at hh hy
            subst hy
            show r.start = start + size - 1 + 1
            omega
        · intro r hr
          rcases List.mem_cons.mp hr with hr | hr
          · subst hr; show start ≤ start + size - 1; omega
          · exact ihIncl r hr
        · rw [List.map_cons, List.sum_cons, ihSum]
          show start + size - 1 - start + 1 + (L - (start + size)) = L - start
          omega
      · rw [dif_neg (by intro hc; exact h hc.1)]
        refine ⟨by simp, by simp, ?_, ?_⟩
        · intro r hr
          simp only [List.mem_singleton] at hr
          subst hr
          show start ≤ L - 1
          omega
        · simp only [List.map_cons, List.map_nil, List.sum_cons, List.sum_nil]
          omega
  intro start hlt
  exact key (L - start) start (le_refl _) hlt

theorem mkTiles_length_bound (L size : Nat) (hsize : 0 < size) :
    ∀ start, start < L → ((mkTiles L size start).length - 1) * size + start < L := by
  have key : ∀ n start, L - start ≤ n → start < L →
      ((mkTiles L size start).length - 1) * size + start < L := by
    intro n
    induction n with
    | zero => intro start hle hlt; omega
    | succ n ih =>
      intro start hle hlt
      rw [mkTiles]
      by_cases h : start + size - 1 < L - 1
      · rw [dif_pos ⟨h, hsize⟩]
        have ihb := ih (start + size) (by omega) (by omega)
        have hne : mkTiles L size (start + size) ≠ [] := mkTiles_ne_nil L size _
        have hlen : 1 ≤ (mkTiles L size (start + size)).length :=
          List.length_pos.mpr hne
        rw [List.length_cons]
        have h1 : (mkTiles L size (start + size)).length * size
            = ((mkTiles L size (start + size)).length - 1) * size + size := by
          cases hq : (mkTiles L size (start + size)).length with
          | zero => omega
          | succ m => simp [Nat.succ_mul]
        have h2 : (mkTiles L size (start + size)).length + 1 - 1
            = (mkTiles L size (start + size)).length := by omega
        rw [h2, h1]
        generalize ((mkTiles L size (start + size)).length - 1) * size = A at ihb ⊢
        omega
      · rw [dif_neg (by intro hc; exact h hc.1)]
        simpa using hlt
  intro start hlt
  exact key (L - start) start (le_refl _) hlt

theorem rangesLoop_eq_mkTiles (L size : Nat) (hsize : 0 < size) :
    ∀ fuel start e acc, start < L → e < L - 1 → L - start + 2 ≤ fuel →
      rangesLoop L size fuel start e acc = acc ++ mkTiles L size start := by
  intro fuel
  induction fuel with
  | zero => intro start e acc h1 h2 h3; omega
  | succ fuel ih =>
    intro start e acc h1 h2 h3
    simp only [rangesLoop]
    rw [if_pos h2]
    by_cases h4 : start + size - 1 < L - 1
    · rw [if_pos h4]
      have he : start + size - 1 + 1 = start + size := by omega
      rw [he]
      rw [ih _ _ _ (by omega) h4 (by omega)]
      rw [mkTiles_cons L size start h4 hsize]
      simp
    · rw [if_neg h4]
      cases fuel with
      | zero => omega
      | succ f =>
        simp only [rangesLoop]
        rw [if_neg h4, mkTiles_single L size start (by intro hc; exact h4 hc.1)]

theorem rangeSizeLoop1_le (L : Nat) : ∀ fuel r, r ≤ rangeSizeLoop1 L fuel r := by
  intro fuel
  induction fuel with
  | zero => intro r; exact le_refl r
  | succ fuel ih =>
    intro r
    simp only [rangeSizeLoop1]
    split
    · split
      · exact le_refl r
      · exact le_trans (by omega) (ih (2 * r))
    · exact le_refl r

theorem rangeSizeLoop2_le (L : Nat) : ∀ fuel r, r ≤ rangeSizeLoop2 L fuel r := by
  intro fuel
  induction fuel with
  | zero => intro r; exact le_refl r
  | succ fuel ih =>
    intro r
    simp only [rangeSizeLoop2]
    split
    · exact le_trans (by omega) (ih (2 * r))
    · exact le_refl r

theorem rangeSizeLoop2_bound (L : Nat) :
    ∀ fuel r, L ≤ 10000 * (2 ^ fuel * r) → L ≤ 10000 * rangeSizeLoop2 L fuel r := by
  intro fuel
  induction fuel with
  | zero =>
    intro r h
    simpa [rangeSizeLoop2] using h
  | succ fuel ih =>
    intro r h
    simp only [rangeSizeLoop2]
    split
    · refine ih (2 * r) ?_
      have heq : 2 ^ (fuel + 1) * r = 2 ^ fuel * (2 * r) := by ring
      rw [← heq]
      exact h
    · omega

theorem getRangeSize_pos (L : Nat) (hL : 1 ≤ L) : 0 < _getRangeSize L := by
  unfold _getRangeSize
  dsimp only
  split
  · omega
  · have h1 : (1024 * 1024 * 16 : Nat) ≤ rangeSizeLoop1 L L (1024 * 1024 * 16) :=
      rangeSizeLoop1_le L L _
    have h2 := rangeSizeLoop2_le L L (rangeSizeLoop1 L L (1024 * 1024 * 16))
    omega

theorem getRangeSize_bound (L : Nat) (hL : 1 ≤ L) : L ≤ 10000 * _getRangeSize L := by
  unfold _getRangeSize
  dsimp only
  split
  · omega
  · refine rangeSizeLoop2_bound L L _ ?_
    have h1 : (1 : Nat) ≤ rangeSizeLoop1 L L (1024 * 1024 * 16) :=
      le_trans (by omega) (rangeSizeLoop1_le L L _)
    have h2 : L < 2 ^ L := Nat.lt_two_pow L
    have h3 : 2 ^ L ≤ 2 ^ L * rangeSizeLoop1 L L (1024 * 1024 * 16) :=
      Nat.le_mul_of_pos_right _ h1
    have h4 : 2 ^ L * rangeSizeLoop1 L L (1024 * 1024 * 16)
        ≤ 10000 * (2 ^ L * rangeSizeLoop1 L L (1024 * 1024 * 16)) :=
      Nat.le_mul_of_pos_left _ (by omega)
    omega

theorem getGCPRangeSize_pos (L : Nat) (hL : 1 ≤ L) : 0 < _getGCPRangeSize L := by
  unfold _getGCPRangeSize
  dsimp only
  split
  · refine Nat.div_pos ?_ (by norm_num [MPU_GCP_MAX_PARTS])
    have h1 : (1 : Nat) ≤ 2 ^ Nat.clog 2 L := Nat.one_le_two_pow
    simp only [MPU_GCP_MAX_PARTS]
    omega
  · exact getRangeSize_pos L hL

theorem getGCPRangeSize_bound (L : Nat) :
    L ≤ MPU_GCP_MAX_PARTS * _getGCPRangeSize L := by
  unfold _getGCPRangeSize
  dsimp only
  split
  · have hle : L ≤ 2 ^ Nat.clog 2 L := Nat.le_pow_clog (by norm_num) L
    have hdm := Nat.div_add_mod (2 ^ Nat.clog 2 L + (MPU_GCP_MAX_PARTS - 1)) MPU_GCP_MAX_PARTS
    have hmod : (2 ^ Nat.clog 2 L + (MPU_GCP_MAX_PARTS - 1)) % MPU_GCP_MAX_PARTS
        < MPU_GCP_MAX_PARTS := Nat.mod_lt _ (by norm_num [MPU_GCP_MAX_PARTS])
    simp only [MPU_GCP_MAX_PARTS] at *
    omega
  · omega

theorem getRanges_eq (L : Nat) (hL : 1 ≤ L) (isGCP : Bool)
    (hpos : 0 < (if isGCP then _getGCPRangeSize L else _getRangeSize L)) :
    _getRanges L isGCP =
      (mkTiles L (if isGCP then _getGCPRangeSize L else _getRangeSize L) 0).map some := by
  unfold _getRanges
  rw [if_neg (by omega)]
  dsimp only
  congr 1
  rcases Nat.lt_or_ge L 2 with h | h
  · have hL1 : L = 1 := by omega
    subst hL1
    rw [mkTiles_single 1 _ 0 (by omega)]
    show rangesLoop 1 _ (2 + 1) 0 0 [] = [⟨0, 1 - 1⟩]
    rw [rangesLoop]
    norm_num
  · have := rangesLoop_eq_mkTiles L _ hpos (L + 2) 0 0 [] (by omega) (by omega) (by omega)
    simpa using this

theorem tiles_count_le (L size M : Nat) (hpos : 0 < size) (hL : 1 ≤ L)
    (hbound : L ≤ M * size) : (mkTiles L size 0).length ≤ M := by
  have h := mkTiles_length_bound L size hpos 0 (by omega)
  have h2 : ((mkTiles L size 0).length - 1) * size < M * size := by omega
  have h3 : (mkTiles L size 0).length - 1 < M :=
    lt_of_mul_lt_mul_right h2 (Nat.zero_le size)
  omega

/-- Claim C1: for every content length `L ≥ 1` and either destination family,
`_getRanges(L, isGCP)` exactly tiles `[0, L-1]` — the ranges are contiguous,
inclusive, start at 0, end at `L-1`, and their sizes sum to `L`; the number
of ranges is between 1 and 10000, and at most 1024 when the destination is
GCP; and for `L = 0` the planner returns exactly one `null` range. -/
theorem c1_range_planner_tiles :
    (∀ isGCP, _getRanges 0 isGCP = [none]) ∧
    (∀ (L : Nat) (isGCP : Bool), 1 ≤ L →
      ∃ rs : List ByteRange,
        _getRanges L isGCP = rs.map some ∧
        rs ≠ [] ∧
        (rs.map ByteRange.start).head? = some 0 ∧
        (rs.map ByteRange.stop).getLast? = some (L - 1) ∧
        List.Chain' (fun a b => b.start = a.stop + 1) rs ∧
        (∀ r ∈ rs, r.start ≤ r.stop) ∧
        (rs.map (fun r => r.stop - r.start + 1)).sum = L ∧
        1 ≤ rs.length ∧ rs.length ≤ 10000 ∧
        (isGCP = true → rs.length ≤ 1024)) := by
  constructor
  · intro isGCP; rfl
  · intro L isGCP hL
    have hpos : 0 < (if isGCP then _getGCPRangeSize L else _getRangeSize L) := by
      cases isGCP
      · simpa using getRangeSize_pos L hL
      · simpa using getGCPRangeSize_pos L hL
    refine ⟨mkTiles L (if isGCP then _getGCPRangeSize L else _getRangeSize L) 0,
      getRanges_eq L hL isGCP hpos, mkTiles_ne_nil _ _ _, mkTiles_head _ _ _, ?_, ?_, ?_, ?_, ?_, ?_, ?_⟩
    · exact (mkTiles_spec L _ hpos 0 (by omega)).1
    · exact (mkTiles_spec L _ hpos 0 (by omega)).2.1
    · exact (mkTiles_spec L _ hpos 0 (by omega)).2.2.1
    · have := (mkTiles_spec L _ hpos 0 (by omega)).2.2.2
      simpa using this
    · exact List.length_pos.mpr (mkTiles_ne_nil _ _ _)
    · cases isGCP
      · simp only [Bool.false_eq_true, if_false] at hpos ⊢
        exact tiles_count_le L _ 10000 hpos hL (getRangeSize_bound L hL)
      · simp only [if_true] at hpos ⊢
        refine tiles_count_le L _ 10000 hpos hL ?_
        have h1 := getGCPRangeSize_bound L
        have h2 : MPU_GCP_MAX_PARTS * _getGCPRangeSize L ≤ 10000 * _getGCPRangeSize L := by
          simp only [MPU_GCP_MAX_PARTS]
          exact Nat.mul_le_mul_right _ (by omega)
        omega
    · intro hgcp
      subst hgcp
      simp only [if_true] at hpos ⊢
      refine tiles_count_le L _ 1024 hpos hL ?_
      have h1 := getGCPRangeSize_bound L
      simpa [MPU_GCP_MAX_PARTS] using h1

/-- Witness for C1 at `L = 3`, `isGCP = true`. -/
theorem c1_range_planner_tiles_witness :
    ∃ rs : List ByteRange,
      _getRanges 3 true = rs.map some ∧
      rs ≠ [] ∧
      (rs.map ByteRange.start).head? = some 0 ∧
      (rs.map ByteRange.stop).getLast? = some (3 - 1) ∧
      List.Chain' (fun a b => b.start = a.stop + 1) rs ∧
      (∀ r ∈ rs, r.start ≤ r.stop) ∧
      (rs.map (fun r => r.stop - r.start + 1)).sum = 3 ∧
      1 ≤ rs.length ∧ rs.length ≤ 10000 ∧
      (true = true → rs.length ≤ 1024) :=
  c1_range_planner_tiles.2 3 true (by decide)

/-- Claim C5 counterexample: at `L = 1` the code's `_getRangeSize` returns
`1` (the early `if (contentLen <= rangeSize) return contentLen;`), while the
spec's algorithm (base 16MiB, doubling loops, GCP cap) yields `16 MiB`, for
both destination families. -/
theorem c5_partsize_counterexample :
    _getRangeSize 1 = 1 ∧ specPartSize 1 = 16777216 ∧
    _getRangeSize 1 ≠ specPartSize 1 ∧
    _getGCPRangeSize 1 = 1 ∧ specGCPPartSize 1 = 16777216 ∧
    _getGCPRangeSize 1 ≠ specGCPPartSize 1 := by decide

/-- Claim C5 (amended): for `L ≤ 16MiB` the planner chooses part size `L`
itself (the source's early return, which the spec's algorithm omits); for
`L > 16MiB` the part size chosen by the planner equals the spec's algorithm
(base 16 MiB, the two doubling loops, and for the GCP family the
`ceil(nextPow2(L)/1024)` cap), for both destination families. -/
theorem c5_partsize_amended (L : Nat) :
    (L ≤ 1024 * 1024 * 16 → _getRangeSize L = L ∧ _getGCPRangeSize L = L) ∧
    (1024 * 1024 * 16 < L →
      _getRangeSize L = specPartSize L ∧ _getGCPRangeSize L = specGCPPartSize L) := by
  constructor
  · intro h
    have h1 : _getRangeSize L = L := by
      unfold _getRangeSize
      dsimp only
      rw [if_pos h]
    refine ⟨h1, ?_⟩
    unfold _getGCPRangeSize
    dsimp only
    rw [h1, if_neg (by simp only [MPU_GCP_MAX_PARTS]; omega)]
  · intro h
    have h1 : _getRangeSize L = specPartSize L := by
      unfold _getRangeSize specPartSize
      dsimp only
      rw [if_neg (by omega)]
    refine ⟨h1, ?_⟩
    unfold _getGCPRangeSize specGCPPartSize
    dsimp only
    rw [h1]

/-- Witness for the amended C5 at `L = 1` (small case) and `L = 16MiB + 1`
(large case). -/
theorem c5_partsize_amended_witness :
    (_getRangeSize 1 = 1 ∧ _getGCPRangeSize 1 = 1) ∧
    (_getRangeSize 16777217 = specPartSize 16777217 ∧
      _getGCPRangeSize 16777217 = specGCPPartSize 16777217) :=
  ⟨(c5_partsize_amended 1).1 (by decide), (c5_partsize_amended 16777217).2 (by decide)⟩

/-- Claim C2: `_handleReplicationOutcome` maps every terminal result exactly
as specified — success publishes COMPLETED and returns `committable: false`;
`BadRole`, or `NoSuchEntity`/`AccessDenied` with `origin = source`,
publishes nothing and completes committable; `ObjNotFound` and
`InvalidObjectState` publish nothing and complete committable; every other
terminal error publishes FAILED with the error description and returns
`committable: false`. -/
theorem c2_handle_replication_outcome :
    (_handleReplicationOutcome none =
      { published := some .completed, committable := false }) ∧
    (∀ e : OutcomeError,
      (e.badRole ∨ (e.origin = some "source" ∧
        (e.noSuchEntity ∨ e.code = "NoSuchEntity" ∨ e.accessDenied ∨ e.code = "AccessDenied"))) →
      _handleReplicationOutcome (some e) = { published := none, committable := true }) ∧
    (∀ e : OutcomeError,
      (e.objNotFound ∨ e.code = "ObjNotFound" ∨
        e.invalidObjectState ∨ e.code = "InvalidObjectState") →
      _handleReplicationOutcome (some e) = { published := none, committable := true }) ∧
    (∀ e : OutcomeError,
      ¬(e.badRole ∨ (e.origin = some "source" ∧
        (e.noSuchEntity ∨ e.code = "NoSuchEntity" ∨ e.accessDenied ∨ e.code = "AccessDenied"))) →
      ¬(e.objNotFound ∨ e.code = "ObjNotFound") →
      ¬(e.invalidObjectState ∨ e.code = "InvalidObjectState") →
      _handleReplicationOutcome (some e) =
        { published := some (.failed e.description), committable := false }) := by
  refine ⟨rfl, ?_, ?_, ?_⟩
  · intro e h
    unfold _handleReplicationOutcome
    dsimp only
    rw [if_pos h]
  · intro e h
    unfold _handleReplicationOutcome
    dsimp only
    split_ifs with h1 h2 h3
    · rfl
    · rfl
    · rfl
    · exact absurd h (by tauto)
  · intro e h1 h2 h3
    unfold _handleReplicationOutcome
    dsimp only
    rw [if_neg h1, if_neg h2, if_neg h3]

/-- Witness for C2: a `BadRole` error completes committable with no
publication. -/
theorem c2_handle_replication_outcome_witness :
    _handleReplicationOutcome (some
      { badRole := true, noSuchEntity := false, accessDenied := false,
        objNotFound := false, invalidObjectState := false,
        code := "BadRole", origin := none, description := "bad role" }) =
      { published := none, committable := true } :=
  c2_handle_replication_outcome.2.1 _ (Or.inl rfl)

/-- Claim C6: if any element of `location[]` lacks a `dataStoreETag`, the
data-replication path fails with the permanent `InternalError` before any
gateway request is issued (its trace is empty — no `getObject` and no
`multipleBackendPutObject`); conversely, when every part carries a
`dataStoreETag` this error branch is never taken and the task proceeds to
the body of `_getAndPutData`. -/
theorem c6_datastore_etag_guard :
    (∀ (entry : SrcEntry) (env : TaskEnv),
      (∃ p ∈ entry.location, p.dataStoreETag = none) →
      _getAndPutData entry env = ([], .done (some errInternalErrorETag))) ∧
    (∀ (entry : SrcEntry) (env : TaskEnv),
      (∀ p ∈ entry.location, p.dataStoreETag ≠ none) →
      _getAndPutData entry env = _getAndPutDataBody entry env) := by
  constructor
  · intro entry env ⟨p, hp, he⟩
    unfold _getAndPutData
    rw [if_pos]
    exact List.any_eq_true.mpr ⟨p, hp, by rw [he]; rfl⟩
  · intro entry env h
    unfold _getAndPutData
    rw [if_neg]
    intro hc
    obtain ⟨p, hp, he⟩ := List.any_eq_true.mp hc
    exact h p hp (Option.isNone_iff_eq_none.mp he)

/-- Witness for C6: the entry whose single part has no `dataStoreETag` fails
with the `InternalError` and an empty trace; the entry whose part has one
goes to the body. -/
theorem c6_datastore_etag_guard_witness :
    _getAndPutData exEntryNoETag exEnvOk = ([], .done (some errInternalErrorETag)) ∧
    _getAndPutData exEntryPlain exEnvOk = _getAndPutDataBody exEntryPlain exEnvOk :=
  ⟨c6_datastore_etag_guard.1 exEntryNoETag exEnvOk
      ⟨{ dataStoreETag := none, partNumber := 1, partSize := 1 }, by decide, rfl⟩,
    c6_datastore_etag_guard.2 exEntryPlain exEnvOk (by decide)⟩

/-- Claim C7 (the code contradicts it): every destination-gateway error —
`multipleBackendPutMPUPart` (line 625), `multipleBackendCompleteMPU`
(line 544), `multipleBackendPutObject` (line 1053) — is tagged
`origin = 'source'`, not `'target'` as the claim (and the adjacent log
fields, which say `origin: 'target'`) state; consequently the
`onRetryFunc` of `_getAndPutPart`, which advances to the next destination
host only when `err.origin === 'target'`, never fires for these errors. -/
theorem c7_origin_tagging_code_bug :
    ∀ e : RErr,
      (putMPUPartTagOrigin e).origin = some "source" ∧
      (completeMPUTagOrigin e).origin = some "source" ∧
      (putObjectTagOrigin e).origin = some "source" ∧
      (putMPUPartTagOrigin e).origin ≠ some "target" ∧
      onRetryAdvancesHost (putMPUPartTagOrigin e) = false ∧
      onRetryAdvancesHost (completeMPUTagOrigin e) = false ∧
      onRetryAdvancesHost (putObjectTagOrigin e) = false := by
  intro e
  refine ⟨rfl, rfl, rfl, ?_, rfl, rfl, rfl⟩
  simp [putMPUPartTagOrigin]

/-- Claim C8: for every object entry the mirror rewrites each location
element to the canonical `dataStoreName`/`dataStoreType` (and the mirror
key), sets `dataStoreVersionId` exactly when the entry has a version id
(otherwise the original value survives), leaves the remaining location
fields unchanged, and then issues one put of the manipulated value under
the object's versioned key with version params `undefined`; a delete entry
issues one delete of the versioned key with version params `undefined`. -/
theorem c8_mirror_object_write :
    (∀ (e : ObjEntry) (env : MirrorEnv),
      (processKafkaEntry (.objectOp e) env).1 =
        [DbOp.putObject e.bucket e.objectVersionedKey
          (_manipulateOwner (_manipulateLocation e)).md none] ∧
      List.Forall₂ (fun oldL newL =>
          newL.dataStoreName = "philz-ring" ∧
          newL.dataStoreType = "aws_s3" ∧
          newL.key = e.objectKey ∧
          newL.dataStoreVersionId =
            (if e.versionId.isSome then some e.encodedVersionId
              else oldL.dataStoreVersionId) ∧
          newL.dataStoreETag = oldL.dataStoreETag ∧
          newL.size = oldL.size ∧
          newL.start = oldL.start)
        e.md.location (_manipulateOwner (_manipulateLocation e)).md.location) ∧
    (∀ (bucket key : String) (env : MirrorEnv),
      (processKafkaEntry (.deleteOp bucket key) env).1 =
        [DbOp.deleteObject bucket key none]) := by
  refine ⟨fun e env => ⟨rfl, ?_⟩, fun bucket key env => rfl⟩
  show List.Forall₂ _ e.md.location (e.md.location.map _)
  have hmap : ∀ {α β : Type} (R : α → β → Prop) (f : α → β) (h : ∀ a, R a (f a))
      (l : List α), List.Forall₂ R l (l.map f) := by
    intro α β R f h l
    induction l with
    | nil => exact .nil
    | cons a t iht => exact .cons (h a) iht
  exact hmap _ _ (fun a => ⟨rfl, rfl, rfl, rfl, rfl, rfl, rfl⟩) _

/-- Claim C9: the three `RaftLogEntry` constructors produce exactly the
specified mirror-write records, each with type `'put'`. -/
theorem c9_raft_log_entries :
    (∀ (M : Type) (stringify : M → String) (md : ObjectMdInfo M) (pref : String),
      createPutEntry stringify md pref =
        { type := "put", bucket := pref ++ "-" ++ md.bucketName,
          key := md.objectKey, value := some (stringify md.res) }) ∧
    (∀ bucket pref : String,
      createPutBucketEntry bucket pref =
        { type := "put", bucket := usersBucket,
          key := pref ++ "-" ++ bucket, value := none }) ∧
    (∀ (b : BucketInfoMd) (pref : String),
      createPutBucketMdEntry b pref =
        { type := "put", bucket := pref ++ "-" ++ b.name,
          key := pref ++ "-" ++ b.name, value := some b.serialized }) :=
  ⟨fun _ _ _ _ => rfl, fun _ _ => rfl, fun _ _ => rfl⟩

/-- Claim C10: a `BucketQueueEntry` or `BucketMdQueueEntry` delivered to the
mirror processor issues no database operation and the callback reports no
error (the handlers are commented out and the entry falls through to the
final `process.nextTick(done)`). -/
theorem c10_bucket_entries_noop :
    ∀ (info : String) (env : MirrorEnv),
      processKafkaEntry (.bucketOp info) env = ([], none) ∧
      processKafkaEntry (.bucketMdOp info) env = ([], none) :=
  fun _ _ => ⟨rfl, rfl⟩

/-! ## Lemmas about the MPU pipeline -/

theorem checkObjectState_typeError (entry : SrcEntry) (env : TaskEnv) (k : Nat) :
    _checkObjectState entry env k = ([], JsResult.typeError) := rfl

theorem checkMPUState_typeError (entry : SrcEntry) (env : TaskEnv) (k : Nat) :
    _checkMPUState entry env k = ([], JsResult.typeError) := rfl

theorem partsLoop_no_complete (entry : SrcEntry) (env : TaskEnv) (isAzure : Bool) :
    ∀ (rs : List (Option ByteRange)) (n k : Nat),
      GOp.completeMPU ∉ (partsLoop entry env isAzure rs n k).1 := by
  intro rs
  induction rs with
  | nil => intro n k; simp [partsLoop]
  | cons r rest ih =>
    intro n k hop
    simp only [partsLoop, partAttempt, checkMPUState_typeError] at hop
    cases hpr : env.partRes (n + 1) with
    | error e =>
      rw [hpr] at hop
      dsimp only at hop
      split at hop
      · cases r <;> simp at hop
      · cases r <;> simp at hop
    | ok d =>
      rw [hpr] at hop
      dsimp only at hop
      split at hop
      · cases r <;> simp at hop
      · rcases hrec : partsLoop entry env isAzure rest (n + 1) (k + 1) with ⟨revs, rres⟩
        rw [hrec] at hop
        have ihm := ih (n + 1) (k + 1)
        rw [hrec] at ihm
        cases rres <;> dsimp only at hop <;> cases r <;> simp at hop <;> exact ihm hop

theorem partsLoop_no_init (entry : SrcEntry) (env : TaskEnv) (isAzure : Bool) :
    ∀ (rs : List (Option ByteRange)) (n k : Nat),
      GOp.initiateMPU ∉ (partsLoop entry env isAzure rs n k).1 := by
  intro rs
  induction rs with
  | nil => intro n k; simp [partsLoop]
  | cons r rest ih =>
    intro n k hop
    simp only [partsLoop, partAttempt, checkMPUState_typeError] at hop
    cases hpr : env.partRes (n + 1) with
    | error e =>
      rw [hpr] at hop
      dsimp only at hop
      split at hop
      · cases r <;> simp at hop
      · cases r <;> simp at hop
    | ok d =>
      rw [hpr] at hop
      dsimp only at hop
      split at hop
      · cases r <;> simp at hop
      · rcases hrec : partsLoop entry env isAzure rest (n + 1) (k + 1) with ⟨revs, rres⟩
        rw [hrec] at hop
        have ihm := ih (n + 1) (k + 1)
        rw [hrec] at ihm
        cases rres <;> dsimp only at hop <;> cases r <;> simp at hop <;> exact ihm hop

theorem partsLoop_no_abort (entry : SrcEntry) (env : TaskEnv) (isAzure : Bool) :
    ∀ (rs : List (Option ByteRange)) (n k : Nat),
      GOp.abortMPU ∉ (partsLoop entry env isAzure rs n k).1 := by
  intro rs
  induction rs with
  | nil => intro n k; simp [partsLoop]
  | cons r rest ih =>
    intro n k hop
    simp only [partsLoop, partAttempt, checkMPUState_typeError] at hop
    cases hpr : env.partRes (n + 1) with
    | error e =>
      rw [hpr] at hop
      dsimp only at hop
      split at hop
      · cases r <;> simp at hop
      · cases r <;> simp at hop
    | ok d =>
      rw [hpr] at hop
      dsimp only at hop
      split at hop
      · cases r <;> simp at hop
      · rcases hrec : partsLoop entry env isAzure rest (n + 1) (k + 1) with ⟨revs, rres⟩
        rw [hrec] at hop
        have ihm := ih (n + 1) (k + 1)
        rw [hrec] at ihm
        cases rres <;> dsimp only at hop <;> cases r <;> simp at hop <;> exact ihm hop

theorem partsLoop_ok_parts (entry : SrcEntry) (env : TaskEnv) (isAzure : Bool) :
    ∀ (rs : List (Option ByteRange)) (n k : Nat) (l : List CompletedPart),
      (partsLoop entry env isAzure rs n k).2 = .ok l →
      ∀ i, i < rs.length → (env.partRes (n + i + 1)).isOk = true := by
  intro rs
  induction rs with
  | nil => intro n k l h i hi; simp at hi
  | cons r rest ih =>
    intro n k l h i hi
    simp only [partsLoop, partAttempt, checkMPUState_typeError] at h
    cases hpr : env.partRes (n + 1) with
    | error e =>
      rw [hpr] at h
      dsimp only at h
      split at h <;> simp at h
    | ok d =>
      rw [hpr] at h
      dsimp only at h
      cases i with
      | zero =>
        have harith : n + 0 + 1 = n + 1 := by omega
        rw [harith, hpr]
        rfl
      | succ j =>
        have hj : j < rest.length := by simpa using hi
        have harith : n + (j + 1) + 1 = (n + 1) + j + 1 := by omega
        rw [harith]
        split at h
        · simp at h
        · rcases hrec : partsLoop entry env isAzure rest (n + 1) (k + 1) with ⟨revs, rres⟩
          rw [hrec] at h
          cases rres with
          | ok l2 => exact ih (n + 1) (k + 1) l2 (by rw [hrec]) j hj
          | err e2 => simp at h
          | typeError => simp at h

theorem completeMPU_events (env : TaskEnv) : (_completeMPU env).1 = [GOp.completeMPU] := by
  unfold _completeMPU
  cases env.completeRes <;> rfl

theorem completeRangedMPU_complete (entry : SrcEntry) (env : TaskEnv) (k0 : Nat)
    (hmem : GOp.completeMPU ∈ (_completeRangedMPU entry env k0).1) :
    ∃ pre, (_completeRangedMPU entry env k0).1 = pre ++ [GOp.completeMPU] ∧
      GOp.completeMPU ∉ pre ∧
      ∀ i < (_getRanges entry.contentLength (env.endpointType = "gcp")).length,
        (env.partRes (i + 1)).isOk = true := by
  unfold _completeRangedMPU at hmem ⊢
  dsimp only at hmem ⊢
  rcases hpl : partsLoop entry env (decide (env.endpointType = "azure"))
      (_getRanges entry.contentLength (decide (env.endpointType = "gcp"))) 0 k0
    with ⟨pevs, pres⟩
  rw [hpl] at hmem
  cases pres with
  | err e =>
    dsimp only at hmem
    have hnc := partsLoop_no_complete entry env (decide (env.endpointType = "azure"))
      (_getRanges entry.contentLength (decide (env.endpointType = "gcp"))) 0 k0
    rw [hpl] at hnc
    exact absurd hmem hnc
  | typeError =>
    dsimp only at hmem
    have hnc := partsLoop_no_complete entry env (decide (env.endpointType = "azure"))
      (_getRanges entry.contentLength (decide (env.endpointType = "gcp"))) 0 k0
    rw [hpl] at hnc
    exact absurd hmem hnc
  | ok l =>
    dsimp only at hmem ⊢
    refine ⟨pevs, ?_, ?_, ?_⟩
    · rw [completeMPU_events]
    · have hnc := partsLoop_no_complete entry env (decide (env.endpointType = "azure"))
        (_getRanges entry.contentLength (decide (env.endpointType = "gcp"))) 0 k0
      rw [hpl] at hnc
      exact hnc
    · intro i hi
      have hok := partsLoop_ok_parts entry env (decide (env.endpointType = "azure"))
        (_getRanges entry.contentLength (decide (env.endpointType = "gcp"))) 0 k0 l
        (by rw [hpl]) i hi
      simpa using hok

theorem initiateMPU_events (entry : SrcEntry) (env : TaskEnv) :
    (_initiateMPU entry env).1 = [] ∨ (_initiateMPU entry env).1 = [GOp.initiateMPU] := by
  unfold _initiateMPU
  split
  · exact Or.inl rfl
  · cases env.initRes <;> exact Or.inr rfl

theorem initiateMPU_events_nonazure (entry : SrcEntry) (env : TaskEnv)
    (h : ¬ env.endpointType = "azure") :
    (_initiateMPU entry env).1 = [GOp.initiateMPU] := by
  unfold _initiateMPU
  rw [if_neg h]
  cases env.initRes <;> rfl

theorem completeRangedMPU_no_abort (entry : SrcEntry) (env : TaskEnv) (k0 : Nat) :
    GOp.abortMPU ∉ (_completeRangedMPU entry env k0).1 := by
  intro hop
  unfold _completeRangedMPU at hop
  dsimp only at hop
  rcases hpl : partsLoop entry env (decide (env.endpointType = "azure"))
      (_getRanges entry.contentLength (decide (env.endpointType = "gcp"))) 0 k0
    with ⟨pevs, pres⟩
  rw [hpl] at hop
  have hna := partsLoop_no_abort entry env (decide (env.endpointType = "azure"))
      (_getRanges entry.contentLength (decide (env.endpointType = "gcp"))) 0 k0
  rw [hpl] at hna
  cases pres with
  | err e => dsimp only at hop; exact hna hop
  | typeError => dsimp only at hop; exact hna hop
  | ok l =>
    dsimp only at hop
    rw [completeMPU_events] at hop
    rcases List.mem_append.mp hop with hop | hop
    · exact hna hop
    · simp at hop

theorem sendInitiateMPU_no_abort (entry : SrcEntry) (env : TaskEnv) (k0 : Nat) :
    GOp.abortMPU ∉ (_sendInitiateMPU entry env k0).1 := by
  intro hop
  unfold _sendInitiateMPU at hop
  rcases hini : _initiateMPU entry env with ⟨ievs, ires⟩
  rw [hini] at hop
  have hievs := initiateMPU_events entry env
  rw [hini] at hievs
  dsimp only at hievs
  cases ires with
  | error e =>
    dsimp only at hop
    rcases hievs with h | h <;> rw [h] at hop <;> simp at hop
  | ok uid =>
    dsimp only at hop
    rcases List.mem_append.mp hop with hop | hop
    · rcases hievs with h | h <;> rw [h] at hop <;> simp at hop
    · exact completeRangedMPU_no_abort entry env k0 hop

theorem getAndPutMPU_no_abort (entry : SrcEntry) (env : TaskEnv) :
    GOp.abortMPU ∉ (_getAndPutMultipartUploadOnce entry env).1 := by
  intro hop
  unfold _getAndPutMultipartUploadOnce at hop
  split at hop
  · simp [_checkObjectState] at hop
  · exact sendInitiateMPU_no_abort entry env 0 hop

theorem sendInitiateMPU_putPart (entry : SrcEntry) (env : TaskEnv) (k0 pn : Nat)
    (hmem : GOp.putMPUPart pn ∈ (_sendInitiateMPU entry env k0).1) :
    (_initiateMPU entry env).2.isOk = true ∧
    (env.endpointType ≠ "azure" →
      ∃ post, (_sendInitiateMPU entry env k0).1 = GOp.initiateMPU :: post ∧
        GOp.putMPUPart pn ∈ post) := by
  unfold _sendInitiateMPU at hmem ⊢
  rcases hini : _initiateMPU entry env with ⟨ievs, ires⟩
  rw [hini] at hmem
  have hievs := initiateMPU_events entry env
  rw [hini] at hievs
  dsimp only at hievs
  cases ires with
  | error e =>
    dsimp only at hmem
    rcases hievs with h | h <;> rw [h] at hmem <;> simp at hmem
  | ok uid =>
    dsimp only at hmem ⊢
    constructor
    · rfl
    · intro haz
      have hievs2 := initiateMPU_events_nonazure entry env haz
      rw [hini] at hievs2
      dsimp only at hievs2
      refine ⟨(_completeRangedMPU entry env k0).1, ?_, ?_⟩
      · rw [hievs2]
        rfl
      · rw [hievs2] at hmem
        simpa using hmem

theorem sendInitiateMPU_complete (entry : SrcEntry) (env : TaskEnv) (k0 : Nat)
    (hmem : GOp.completeMPU ∈ (_sendInitiateMPU entry env k0).1) :
    ∃ pre, (_sendInitiateMPU entry env k0).1 = pre ++ [GOp.completeMPU] ∧
      GOp.completeMPU ∉ pre ∧
      ∀ i < (_getRanges entry.contentLength (env.endpointType = "gcp")).length,
        (env.partRes (i + 1)).isOk = true := by
  unfold _sendInitiateMPU at hmem ⊢
  rcases hini : _initiateMPU entry env with ⟨ievs, ires⟩
  rw [hini] at hmem
  have hievs := initiateMPU_events entry env
  rw [hini] at hievs
  dsimp only at hievs
  cases ires with
  | error e =>
    dsimp only at hmem
    rcases hievs with h | h <;> rw [h] at hmem <;> simp at hmem
  | ok uid =>
    dsimp only at hmem ⊢
    have hmem2 : GOp.completeMPU ∈ (_completeRangedMPU entry env k0).1 := by
      rcases List.mem_append.mp hmem with hmem | hmem
      · exfalso
        rcases hievs with h | h <;> rw [h] at hmem <;> simp at hmem
      · exact hmem
    obtain ⟨pre, hpre, hnotin, hparts⟩ := completeRangedMPU_complete entry env k0 hmem2
    refine ⟨ievs ++ pre, ?_, ?_, hparts⟩
    · rw [hpre, List.append_assoc]
    · intro hc
      rcases List.mem_append.mp hc with hc | hc
      · rcases hievs with h | h <;> rw [h] at hc <;> simp at hc
      · exact hnotin hc

/-- Claim C3 counterexample: a non-NFS one-part run in which the part upload
fails with a non-retryable error terminates without ever issuing
`abort-MPU`, refuting "on any part failure whose error is not retryable,
abort-MPU is issued before the task terminates". -/
theorem c3_abort_counterexample :
    (_getAndPutMultipartUploadOnce exEntryPlain exEnvPartFail).2 =
      .done (some { exErrRaw with origin := some "source" }) ∧
    exErrRaw.retryable = false ∧
    GOp.putMPUPart 1 ∈ (_getAndPutMultipartUploadOnce exEntryPlain exEnvPartFail).1 ∧
    GOp.abortMPU ∉ (_getAndPutMultipartUploadOnce exEntryPlain exEnvPartFail).1 := by
  decide

/-- Claim C3 (amended): in every MPU replication run, (a) no
`multipleBackendPutMPUPart` request is issued unless the init-MPU step has
returned an upload id, and for the families that send an init-MPU request
the `initiateMPU` request strictly precedes every part request in the
trace; (b) `complete-MPU` is issued only as the final request, and only
after every planned part has returned success; (c) `abort-MPU` is never
issued in any run — its only call site (line 848) sits inside the callback
of the NFS object-state re-check, which throws a `TypeError` before that
callback can run (see C4) — so in particular a non-retryable part failure
terminates the task without aborting the MPU. -/
theorem c3_mpu_ordering_amended :
    (∀ (entry : SrcEntry) (env : TaskEnv) (pn : Nat),
      GOp.putMPUPart pn ∈ (_getAndPutMultipartUploadOnce entry env).1 →
      (_initiateMPU entry env).2.isOk = true ∧
      (env.endpointType ≠ "azure" →
        ∃ pre post, (_getAndPutMultipartUploadOnce entry env).1 =
            pre ++ GOp.initiateMPU :: post ∧
          GOp.putMPUPart pn ∈ post ∧ ∀ m, GOp.putMPUPart m ∉ pre)) ∧
    (∀ (entry : SrcEntry) (env : TaskEnv),
      GOp.completeMPU ∈ (_getAndPutMultipartUploadOnce entry env).1 →
      ∃ pre, (_getAndPutMultipartUploadOnce entry env).1 = pre ++ [GOp.completeMPU] ∧
        GOp.completeMPU ∉ pre ∧
        ∀ i < (_getRanges entry.contentLength (env.endpointType = "gcp")).length,
          (env.partRes (i + 1)).isOk = true) ∧
    (∀ (entry : SrcEntry) (env : TaskEnv),
      GOp.abortMPU ∉ (_getAndPutMultipartUploadOnce entry env).1) := by
  refine ⟨?_, ?_, ?_⟩
  · intro entry env pn hmem
    unfold _getAndPutMultipartUploadOnce at hmem ⊢
    by_cases hnfs : entry.isNFS = true
    · rw [if_pos hnfs] at hmem
      simp [_checkObjectState] at hmem
    · rw [if_neg hnfs] at hmem ⊢
      obtain ⟨hok, hdec⟩ := sendInitiateMPU_putPart entry env 0 pn hmem
      refine ⟨hok, ?_⟩
      intro haz
      obtain ⟨post, hpost, hin⟩ := hdec haz
      exact ⟨[], post, by rw [hpost]; simp, hin, by simp⟩
  · intro entry env hmem
    unfold _getAndPutMultipartUploadOnce at hmem ⊢
    by_cases hnfs : entry.isNFS = true
    · rw [if_pos hnfs] at hmem
      simp [_checkObjectState] at hmem
    · rw [if_neg hnfs] at hmem ⊢
      exact sendInitiateMPU_complete entry env 0 hmem
  · intro entry env
    exact getAndPutMPU_no_abort entry env

/-- Witness for the amended C3, applying part (b) at a successful
single-part run: the trace ends in `completeMPU` and the planned part
succeeded. -/
theorem c3_mpu_ordering_amended_witness :
    ∃ pre, (_getAndPutMultipartUploadOnce exEntryPlain exEnvOk).1 = pre ++ [GOp.completeMPU] ∧
      GOp.completeMPU ∉ pre ∧
      ∀ i < (_getRanges exEntryPlain.contentLength (exEnvOk.endpointType = "gcp")).length,
        (exEnvOk.partRes (i + 1)).isOk = true :=
  c3_mpu_ordering_amended.2.1 exEntryPlain exEnvOk (by decide)

/-- Claim C4 (the code contradicts it): the NFS object-state re-check can
never run.  `_checkObjectState` (lines 996-998) passes five arguments to
the 3-parameter `_fetchSourceMD(sourceEntry, log, cb)` (line 370), so
inside `_fetchSourceMD` the `sourceEntry` parameter is the bucket string
and `sourceEntry.getBucket()` throws a `TypeError` synchronously, before
any request; the dropped fifth argument — the real callback, holding the
MD5 comparison and, via `_checkMPUState`, the only `abort-MPU` call site
(line 848) — never runs.  Hence every state check returns the thrown
`TypeError` with an empty trace, an NFS MPU run terminates at its very
first check with no request issued (shown concretely at the failing input
`exEntryNFS` with `exEnvMutate`, whose source MD5 would differ after part
one), and `abortMPU` appears in no run's trace: no MD5 re-check, abort, or
`InvalidObjectState` outcome can occur, contradicting the claim. -/
theorem c4_nfs_check_typeerror :
    (∀ (entry : SrcEntry) (env : TaskEnv) (k : Nat),
      _checkObjectState entry env k = ([], JsResult.typeError)) ∧
    (∀ (entry : SrcEntry) (env : TaskEnv) (k : Nat),
      _checkMPUState entry env k = ([], JsResult.typeError)) ∧
    (∀ (entry : SrcEntry) (env : TaskEnv),
      GOp.abortMPU ∉ (_getAndPutMultipartUploadOnce entry env).1) ∧
    _getAndPutMultipartUploadOnce exEntryNFS exEnvMutate = ([], JsResult.typeError) :=
  ⟨fun _ _ _ => rfl, fun _ _ _ => rfl,
    fun entry env => getAndPutMPU_no_abort entry env, by decide⟩

example : _getRanges 0 true = [none] := by decide
example : _getRanges 1 false = [some ⟨0, 0⟩] := by decide
example : _getRanges 40000000 false =
    [some ⟨0, 16777215⟩, some ⟨16777216, 33554431⟩, some ⟨33554432, 39999999⟩] := by decide
example : _getRangeSize 1 = 1 ∧ specPartSize 1 = 16777216 := by decide
example : _getAndPutMultipartUploadOnce exEntryPlain exEnvOk =
    ([.initiateMPU, .getObject 1, .putMPUPart 1, .completeMPU], .done none) := by decide
example : _getAndPutMultipartUploadOnce exEntryNFS exEnvMutate =
    ([], .typeError) := by decide
